import Mathlib

/-!
# Verification of the Answer Submission & Vote-Tally Engine

Shallow embedding of the core subsystem of `vecenetwork/backnew`:
the vote-tally submission protocol (`AnswerService.create_answer`),
the demographic eligibility evaluator
(`AnswerService._validate_user_demographics`), the expired-question
visibility policy (`QuestionRepository._add_privacy_conditions`), and the
answer read/append operations (`AnswerService.get_answer_by_id`,
`AnswerService.add_answer_options`).

Database rows are embedded as Lean structures, the database as lists of
rows, and each service method as a function from the database state (plus
request data) to an `Except` result together with the post state.  The
SQL uniqueness / foreign-key constraints declared on the ORM models
(`app/orm/questions.py`) are made explicit where an insert could violate
them.  Instants (`datetime`) are embedded as integers, dates as
year/month/day triples, and Python floats as rationals.
-/

namespace Backnew

/-- Enum `Role` from `app/schema/user.py`. -/
inductive Role where
  | user
  | admin
deriving DecidableEq, Repr

/-- Enum `GenderEnum` from `app/schema/user.py`. -/
inductive GenderEnum where
  | male
  | female
  | other
deriving DecidableEq, Repr

/-- Enum `ShowQuestionResultsEnum` from `app/schema/user.py`. -/
inductive ShowQuestionResultsEnum where
  | nobody
  | people_i_follow
  | people_following_me
  | all_connections
  | all
deriving DecidableEq, Repr

/-- Enum `ShowNameOptionEnum` from `app/schema/user.py`. -/
inductive ShowNameOptionEnum where
  | name
  | username
deriving DecidableEq, Repr

/-- Schema `UserSettings` from `app/schema/user.py`, with its in-memory default
field values. -/
structure UserSettings where
  show_name_option : ShowNameOptionEnum := .name
  show_question_results : ShowQuestionResultsEnum := .all_connections
  allow_results_in_digests : Bool := true
  receive_digests : Bool := true
deriving DecidableEq, Repr

/-- The `UserSettings()` pydantic default instance. -/
def defaultUserSettings : UserSettings := {}

/-- A calendar date (`datetime.date`): year, month, day. -/
structure DateD where
  year : Int
  month : Nat
  day : Nat
deriving DecidableEq, Repr

/-- Errors raised by the embedded services.  Mirrors the exception classes
in `app/exceptions.py`, `app/services/answers.py` and
`app/services/questions.py`; `integrityError` stands for a database
constraint violation (unique / primary-key / not-null), which the service
layer does not catch. -/
inductive ApiError where
  | missing
  | unauthorized
  | alreadyAnswered
  | tooManyOptions
  | optionMismatch
  | demographicMismatch
  | questionExpired
  | customOptionsNotAllowed
  | configurationError
  | integrityError
deriving DecidableEq, Repr

/-- Python tuple comparison `(a1, a2) < (b1, b2)` on (month, day) pairs,
as used in `_validate_user_demographics`. -/
def pairLt (a b : Nat × Nat) : Bool :=
  a.1 < b.1 || (a.1 == b.1 && a.2 < b.2)

/-! ## Visibility policy (`QuestionRepository._add_privacy_conditions`)

The SQL `WHERE` fragment built in `_add_privacy_conditions` compares the
(outer-joined, hence possibly `NULL`) `UserSettingsORM.show_question_results`
column against the enum values; a comparison with `NULL` is not true in
SQL, so a missing settings row satisfies none of the disjuncts.  The
`author_follower` join row exists iff the viewer follows the author, the
`author_following` join row exists iff the author follows the viewer. -/


/-- The privacy condition of `_add_privacy_conditions`
(`infrastructure/repository/questions.py`, lines 162–179): `setting` is
the author's stored `show_question_results` (`none` when the author has no
settings row, i.e. the outer join produced `NULL`),
`viewer_follows_author` is `author_follower_alias.id IS NOT NULL`, and
`author_follows_viewer` is `author_following_alias.id IS NOT NULL`. -/
def privacyCondition (setting : Option ShowQuestionResultsEnum)
    (viewer_follows_author author_follows_viewer : Bool) : Bool :=
  (setting == some .all)
    || (setting == some .people_i_follow && author_follows_viewer)
    || (setting == some .people_following_me && viewer_follows_author)
    || (setting == some .all_connections
          && (viewer_follows_author || author_follows_viewer))

/-- The expired-question visibility predicate for an author whose settings
row exists and holds `setting`. -/
def privacyVisible (setting : ShowQuestionResultsEnum)
    (viewer_follows_author author_follows_viewer : Bool) : Bool :=
  privacyCondition (some setting) viewer_follows_author author_follows_viewer

/-- The visibility table as the specification states it
(spec §4.4): used to compare the code's predicate against the spec. -/
def visibleSpec (setting : ShowQuestionResultsEnum)
    (viewer_follows_author author_follows_viewer : Bool) : Bool :=
  match setting with
  | .all => true
  | .nobody => false
  | .people_i_follow => author_follows_viewer
  | .people_following_me => viewer_follows_author
  | .all_connections => viewer_follows_author || author_follows_viewer

/-- The full `WHERE` condition of `get_other_feed_paginated`
(`infrastructure/repository/questions.py`, lines 493–523) for one question
row, in the `is_active is None` branch: the question must be authored by
the target user, pass the demography conditions (abstracted as
`demographyOk`), and be either still active or expired-but-visible under
the privacy condition. -/
def otherFeedCondition (authorMatches demographyOk : Bool)
    (active_till now : Int) (setting : Option ShowQuestionResultsEnum)
    (viewer_follows_author author_follows_viewer : Bool) : Bool :=
  authorMatches && demographyOk
    && (decide (now < active_till)
        || (decide (active_till ≤ now)
            && privacyCondition setting viewer_follows_author author_follows_viewer))

/-! ## Data model

Rows of the four tables of `app/orm/questions.py` plus the respondent
profile (`app/schema/user.py`).  Declared constraints that matter here:
`question_options.id` and `answers.id` are primary keys,
`answer_options` has the composite primary key (`answer_id`,
`option_id`) with foreign keys into `answers` and `question_options`,
and `answers` carries `UniqueConstraint("question_id", "user_id")`. -/


/-- Schema `Country` (only the id is read by the eligibility check). -/
structure Country where
  id : Nat
deriving DecidableEq, Repr

/-- The respondent profile: the fields of `app/schema/user.py`'s `User`
that the answer service reads. -/
structure User where
  id : Nat
  role : Role
  gender : GenderEnum
  country : Country
  birthday : DateD
  settings : Option UserSettings
deriving DecidableEq, Repr

/-- Schema `RangeModel` as read by `_validate_user_demographics`: either bound
may be absent (`question.age_range.start is not None` checks in the
source). -/
structure RangeModel where
  start : Option Int
  stop : Option Int
deriving DecidableEq, Repr

/-- A row of the `questions` table (the columns the answer service and
feed queries read). -/
structure QuestionRow where
  id : Nat
  author_id : Nat
  max_options : Nat
  active_till : Int
  allow_user_options : Bool
  gender : Option (List GenderEnum)
  country_id : Option (List Nat)
  age_range : Option RangeModel
  total_answers : Nat
deriving DecidableEq, Repr

/-- A row of the `question_options` table. -/
structure OptionRow where
  id : Nat
  question_id : Nat
  text : String
  position : Nat
  author_id : Nat
  by_question_author : Bool
  count : Nat
  percentage : ℚ
deriving DecidableEq, Repr

/-- A row of the `answers` table. -/
structure AnswerRow where
  id : Nat
  question_id : Nat
  user_id : Nat
deriving DecidableEq, Repr

/-- A row of the `answer_options` link table. -/
structure AnswerOptionRow where
  answer_id : Nat
  option_id : Nat
deriving DecidableEq, Repr

/-- The relational store: one list of rows per table. -/
structure DB where
  questions : List QuestionRow
  options : List OptionRow
  answers : List AnswerRow
  answer_options : List AnswerOptionRow
deriving DecidableEq, Repr

/-- Schema `AnswerCreate` from `app/schema/questions.py`. -/
structure AnswerCreate where
  options : List Nat := []
  new_options : Option (List String) := none
deriving DecidableEq, Repr

/-- Schema `QuestionOptionCreate` from `app/schema/questions.py`. -/
structure QuestionOptionCreate where
  text : String
  position : Option Nat := none
deriving DecidableEq, Repr

/-! ## Eligibility evaluator (`AnswerService._validate_user_demographics`) -/


/-- Python truthiness of an optional list (`if question.gender`):
false for `None` and for the empty list. -/
def truthyList {α : Type} : Option (List α) → Bool
  | none => false
  | some xs => !xs.isEmpty

/-- Age in whole years, as computed at
`app/services/answers.py:73`:
`today.year - birthday.year - ((today.month, today.day) < (birthday.month, birthday.day))`. -/
def computeAge (today birthday : DateD) : Int :=
  today.year - birthday.year
    - (if pairLt (today.month, today.day) (birthday.month, birthday.day) then 1 else 0)

/-- The age-filter rejection condition of `_validate_user_demographics`
(`app/services/answers.py`, lines 71–77): with a stored age range, reject
when the age undershoots a present lower bound or overshoots a present
upper bound. -/
def ageFails : Option RangeModel → Int → Bool
  | none, _ => false
  | some r, age =>
      (match r.start with | some lo => decide (age < lo) | none => false)
      || (match r.stop with | some hi => decide (hi < age) | none => false)

/-- Method `AnswerService._validate_user_demographics`
(`app/services/answers.py`, lines 61–77), with the current date passed
explicitly. -/
def validateUserDemographics (user : User) (q : QuestionRow) (today : DateD) :
    Except ApiError Unit :=
  if truthyList q.gender && !(decide (user.gender ∈ q.gender.getD [])) then
    .error .demographicMismatch
  else if truthyList q.country_id && !(decide (user.country.id ∈ q.country_id.getD [])) then
    .error .demographicMismatch
  else if ageFails q.age_range (computeAge today user.birthday) then
    .error .demographicMismatch
  else .ok ()

/-- The eligibility predicate as the specification states it (spec §4.1):
each dimension passes when unrestricted (no filter stored — `None` or the
empty list in the source's representation) or when the profile value is in
the filter set; the age dimension compares the whole-year age (decremented
when the birthday's month/day has not yet occurred this year) against the
inclusive bounds, a missing bound constraining only its own side. -/
def eligibleSpec (user : User) (q : QuestionRow) (today : DateD) : Prop :=
  (q.gender = none ∨ q.gender = some [] ∨ user.gender ∈ q.gender.getD [])
  ∧ (q.country_id = none ∨ q.country_id = some [] ∨ user.country.id ∈ q.country_id.getD [])
  ∧ (match q.age_range with
     | none => True
     | some r =>
        (match r.start with | some lo => lo ≤ computeAge today user.birthday | none => True)
        ∧ (match r.stop with | some hi => computeAge today user.birthday ≤ hi | none => True))

/-! ## Vote tally engine (`AnswerService.create_answer`)

The submission protocol is embedded stage by stage.  Fresh primary keys
are allocated as one more than the maximum id in use, matching a serial
column.  The `begin_nested` transaction of the source is the outer
wrapper `createAnswer`: on any error the state reverts to the input
state. -/


/-- Method `AnswerService._validate_question_active`
(`app/services/answers.py`, lines 79–93): the `active_till` column is
non-nullable (`app/orm/questions.py:37`), so the source's `None` guard
cannot fire; after normalising both instants to UTC the check is a plain
comparison. -/
def validateQuestionActive (q : QuestionRow) (now : Int) : Except ApiError Unit :=
  if q.active_till < now then .error .questionExpired else .ok ()

/-- Fresh id for a `question_options` insert (serial primary key). -/
def nextOptionId (db : DB) : Nat := (db.options.map (·.id)).foldr max 0 + 1

/-- Fresh id for an `answers` insert (serial primary key). -/
def nextAnswerId (db : DB) : Nat := (db.answers.map (·.id)).foldr max 0 + 1

/-- The options of a question, as loaded by the `options` relationship /
`get_by_question_id_with_lock`. -/
def questionOptions (db : DB) (qid : Nat) : List OptionRow :=
  db.options.filter (fun o => o.question_id == qid)

/-- The position-assignment scan of `create_answer`
(`app/services/answers.py`, lines 138–141): starting at 1, advance while
the position is taken.  The fuel `ex.length + 1` suffices: among
`ex.length + 1` candidates at least one is free. -/
def freePosAux : Nat → Nat → List Nat → Nat
  | 0, p, _ => p
  | fuel + 1, p, ex => if p ∈ ex then freePosAux fuel (p + 1) ex else p

/-- Lowest unused position ≥ 1. -/
def lowestFreePos (ex : List Nat) : Nat := freePosAux (ex.length + 1) 1 ex

/-- The first pass over `new_option_creates`
(`app/services/answers.py`, lines 136–145): assign the lowest free
position to each create lacking one, fail `TooManyOptions` on a position
conflict, and record the position as taken. -/
def assignPositions : List QuestionOptionCreate → List Nat →
    Except ApiError (List QuestionOptionCreate)
  | [], _ => .ok []
  | c :: rest, existing =>
    let p := match c.position with
      | none => lowestFreePos existing
      | some p => p
    if p ∈ existing then .error .tooManyOptions
    else
      match assignPositions rest (p :: existing) with
      | .error e => .error e
      | .ok rest' => .ok ({ c with position := some p } :: rest')

/-- Method `QuestionService.create_option` (`app/services/questions.py`,
lines 188–216) with `commit=False`: re-check the position against the
current options of the question, check the author's custom-option
restriction, then insert the new option row (zero count, zero
percentage).  A create without a position would violate the non-null
`position` column. -/
def createOption (db : DB) (question_id : Nat) (opt : QuestionOptionCreate)
    (user : User) : Except ApiError (DB × OptionRow) :=
  match db.questions.find? (fun q => q.id == question_id) with
  | none => .error .missing
  | some q =>
    let currentPositions := (questionOptions db question_id).map (·.position)
    if (match opt.position with
        | some p => decide (p ∈ currentPositions)
        | none => false) then .error .configurationError
    else if !q.allow_user_options && !(q.author_id == user.id) then
      .error .customOptionsNotAllowed
    else
      match opt.position with
      | none => .error .integrityError
      | some p =>
        let row : OptionRow :=
          { id := nextOptionId db, question_id := question_id, text := opt.text,
            position := p, author_id := user.id,
            by_question_author := user.id == q.author_id,
            count := 0, percentage := 0 }
        .ok ({ db with options := db.options ++ [row] }, row)

/-- The second pass of `create_answer` (`app/services/answers.py`,
lines 147–152): create each new option and collect the ids. -/
def createOptionsLoop : DB → Nat → List QuestionOptionCreate → User →
    Except ApiError (DB × List Nat)
  | db, _, [], _ => .ok (db, [])
  | db, qid, c :: rest, user =>
    match createOption db qid c user with
    | .error e => .error e
    | .ok (db', row) =>
      match createOptionsLoop db' qid rest user with
      | .error e => .error e
      | .ok (db'', ids) => .ok (db'', row.id :: ids)

/-- Steps 1–3 of the submission protocol
(`app/services/answers.py`, lines 109–121): idempotency pre-check,
question fetch, liveness, demographics. -/
def checksPhase (db : DB) (qid : Nat) (user : User) (today : DateD)
    (now : Int) : Except ApiError QuestionRow :=
  match db.answers.find? (fun a => a.question_id == qid && a.user_id == user.id) with
  | some _ => .error .alreadyAnswered
  | none =>
    match db.questions.find? (fun q => q.id == qid) with
    | none => .error .missing
    | some q =>
      match validateQuestionActive q now with
      | .error e => .error e
      | .ok _ =>
        match validateUserDemographics user q today with
        | .error e => .error e
        | .ok _ => .ok q

/-- Step 4 of the submission protocol
(`app/services/answers.py`, lines 123–152): custom-option handling.
Returns the state with the new options inserted and their ids. -/
def newOptionsPhase (db : DB) (qid : Nat) (q : QuestionRow) (user : User)
    (new_options : Option (List String)) : Except ApiError (DB × List Nat) :=
  let creates := (new_options.getD []).map
    (fun t => ({ text := t, position := none } : QuestionOptionCreate))
  if creates.isEmpty then .ok (db, [])
  else if !q.allow_user_options then .error .tooManyOptions
  else
    let existing := (questionOptions db qid).map (·.position)
    match assignPositions creates existing with
    | .error e => .error e
    | .ok creates' => createOptionsLoop db qid creates' user

/-- Method `QuestionOptionRepository.get_by_ids`
(`infrastructure/repository/questions.py`, lines 725–740): fetch the
option rows with the given ids, failing `Missing` when any id is
absent. -/
def getOptionsByIds (db : DB) (ids : List Nat) : Except ApiError (List OptionRow) :=
  let found := db.options.filter (fun o => ids.contains o.id)
  if ids.all (fun i => (found.map (·.id)).contains i) then .ok found
  else .error .missing

/-- Steps 5–6 of the submission protocol
(`app/services/answers.py`, lines 154–169): selection-size and ownership
validation.  `explicit` is `answer.options`; the ownership pass runs only
when it is non-empty. -/
def validateSelection (db : DB) (q : QuestionRow)
    (all_option_ids explicit : List Nat) : Except ApiError Unit :=
  if all_option_ids.isEmpty then .error .tooManyOptions
  else if q.max_options < all_option_ids.length then .error .tooManyOptions
  else if explicit.isEmpty then .ok ()
  else
    match getOptionsByIds db explicit with
    | .error e => .error e
    | .ok opts =>
      match opts.find? (fun o => !(o.question_id == q.id)) with
      | some _ => .error .optionMismatch
      | none => .ok ()

/-- The `total_answers` increment
(`app/services/answers.py`, lines 174–176) on one question row. -/
def bumpTotal (qid : Nat) (q : QuestionRow) : QuestionRow :=
  if q.id == qid then { q with total_answers := q.total_answers + 1 } else q

/-- The count/percentage recompute
(`app/services/answers.py`, lines 186–199) applied to one locked option
row of the question: `new_count = old + (1 if selected else 0)`,
`new_percentage = new_count * 100 / total_selections` (0 when the total
is zero). -/
def tallyUpdate (qid : Nat) (sel : List Nat) (total : Nat) (o : OptionRow) :
    OptionRow :=
  if o.question_id == qid then
    let newCount := o.count + (if o.id ∈ sel then 1 else 0)
    { o with count := newCount,
             percentage := if 0 < total then (newCount : ℚ) * 100 / (total : ℚ) else 0 }
  else o

/-- Step 7, the write phase (`app/services/answers.py`, lines 171–199):
insert the Answer and its AnswerOption links, bump `total_answers`, then
recompute every option's count and percentage of the question under lock.
The three leading guards are the declared constraints the inserts run
against: uniqueness of (`question_id`, `user_id`) on `answers`, the
foreign keys, and the composite primary key of `answer_options`. -/
def writePhase (db : DB) (qid uid : Nat) (all_option_ids : List Nat) :
    Except ApiError (DB × Nat) :=
  if db.answers.any (fun a => a.question_id == qid && a.user_id == uid) then
    .error .integrityError
  else if !db.questions.any (fun q => q.id == qid) then
    .error .integrityError
  else if !(all_option_ids.Nodup
      ∧ ∀ i ∈ all_option_ids, db.options.any (fun o => o.id == i)) then
    .error .integrityError
  else
    let aid := nextAnswerId db
    let newAnswer : AnswerRow := ⟨aid, qid, uid⟩
    let newLinks := all_option_ids.map (fun oid => (⟨aid, oid⟩ : AnswerOptionRow))
    let sel := all_option_ids.dedup
    let total := ((questionOptions db qid).map (·.count)).sum + sel.length
    .ok ({ questions := db.questions.map (bumpTotal qid),
           options := db.options.map (tallyUpdate qid sel total),
           answers := db.answers ++ [newAnswer],
           answer_options := db.answer_options ++ newLinks }, aid)

/-- The body of `AnswerService.create_answer`
(`app/services/answers.py`, lines 106–209), inside the nested
transaction. -/
def createAnswerInner (db : DB) (qid : Nat) (ans : AnswerCreate) (user : User)
    (today : DateD) (now : Int) : Except ApiError (DB × Nat) :=
  match checksPhase db qid user today now with
  | .error e => .error e
  | .ok q =>
    match newOptionsPhase db qid q user ans.new_options with
    | .error e => .error e
    | .ok (db1, newIds) =>
      let all_option_ids := ans.options ++ newIds
      match validateSelection db1 q all_option_ids ans.options with
      | .error e => .error e
      | .ok _ => writePhase db1 qid user.id all_option_ids

/-- Method `AnswerService.create_answer` with its `begin_nested` transaction:
on success the new state and the new answer's id, on any error the
original state (rollback). -/
def createAnswer (db : DB) (qid : Nat) (ans : AnswerCreate) (user : User)
    (today : DateD) (now : Int) : Except ApiError Nat × DB :=
  match createAnswerInner db qid ans user today now with
  | .ok (db', aid) => (.ok aid, db')
  | .error e => (.error e, db)

/-- Method `AnswerService.get_answer_by_id`
(`app/services/answers.py`, lines 211–219). -/
def getAnswerById (db : DB) (question_id answer_id : Nat) (user : User) :
    Except ApiError AnswerRow :=
  match db.answers.find? (fun a => a.id == answer_id) with
  | none => .error .missing
  | some answer =>
    if answer.user_id == user.id then .ok answer
    else
      match db.questions.find? (fun q => q.id == question_id) with
      | none => .error .missing
      | some q =>
        if !(q.author_id == user.id) || !(user.role == Role.admin) then
          .error .unauthorized
        else .ok answer

/-- Method `AnswerService.add_answer_options`
(`app/services/answers.py`, lines 244–264), with
`AnswerOptionRepository.bulk_create`
(`infrastructure/repository/answers.py`, lines 137–148); the final guard
is the composite primary key of `answer_options` the bulk insert runs
against. -/
def addAnswerOptions (db : DB) (answer_id : Nat) (option_ids : List Nat)
    (user : User) : Except ApiError Unit × DB :=
  match db.answers.find? (fun a => a.id == answer_id) with
  | none => (.error .missing, db)
  | some answer =>
    if !(answer.user_id == user.id) && !(user.role == Role.admin) then
      (.error .unauthorized, db)
    else
      match db.questions.find? (fun q => q.id == answer.question_id) with
      | none => (.error .missing, db)
      | some q =>
        if q.max_options < option_ids.length then (.error .tooManyOptions, db)
        else
          match getOptionsByIds db option_ids with
          | .error e => (.error e, db)
          | .ok opts =>
            match opts.find? (fun o => !(o.question_id == q.id)) with
            | some _ => (.error .optionMismatch, db)
            | none =>
              if option_ids.isEmpty then (.ok (), db)
              else if !(option_ids.Nodup
                  ∧ ∀ oid ∈ option_ids,
                      ¬ db.answer_options.any
                        (fun ao => ao.answer_id == answer.id && ao.option_id == oid)) then
                (.error .integrityError, db)
              else
                (.ok (), { db with answer_options := db.answer_options
                    ++ option_ids.map (fun oid => (⟨answer.id, oid⟩ : AnswerOptionRow)) })

/-! ## Observables and well-formedness -/


/-- Total vote count cached on the options of a question. -/
def sumCounts (db : DB) (qid : Nat) : Nat :=
  ((questionOptions db qid).map (·.count)).sum

/-- Number of `answer_options` rows attached to one answer. -/
def selectionsOf (db : DB) (a : AnswerRow) : Nat :=
  db.answer_options.countP (fun ao => ao.answer_id == a.id)

/-- Sum, over a question's answers, of the number of selected options. -/
def sumSelections (db : DB) (qid : Nat) : Nat :=
  ((db.answers.filter (fun a => a.question_id == qid)).map
    (fun a => selectionsOf db a)).sum

/-- The conservation invariant of spec §8 for one question. -/
abbrev consistent (db : DB) (qid : Nat) : Prop :=
  sumCounts db qid = sumSelections db qid

/-- Structural facts guaranteed by the schema: primary keys of `answers`
and `question_options` are unique, and every `answer_options` row
references an existing answer (foreign key). -/
abbrev WF (db : DB) : Prop :=
  (db.options.map (·.id)).Nodup
  ∧ (db.answers.map (·.id)).Nodup
  ∧ ∀ ao ∈ db.answer_options, ao.answer_id ∈ db.answers.map (·.id)

/-- Number of stored answers for a (question, respondent) pair. -/
def answersFor (db : DB) (qid uid : Nat) : Nat :=
  db.answers.countP (fun a => a.question_id == qid && a.user_id == uid)

/-- One submission request: the route parameters and body of
`POST /questions/{question_id}/answers`, plus the clock readings. -/
structure SubmitReq where
  question_id : Nat
  answer : AnswerCreate
  user : User
  today : DateD
  now : Int
deriving DecidableEq, Repr

/-- A sequence of submissions against the store; a failed submission
leaves the state unchanged (transaction rollback). -/
def runSubmissions : DB → List SubmitReq → DB
  | db, [] => db
  | db, r :: rest =>
    runSubmissions (createAnswer db r.question_id r.answer r.user r.today r.now).2 rest

/-! ## Test fixtures used by the witnesses and counterexamples -/


/-- A respondent. -/
def sampleUser : User :=
  { id := 10, role := .user, gender := .female, country := ⟨1⟩,
    birthday := ⟨1990, 5, 10⟩, settings := none }

/-- The author of the sample question (not an admin). -/
def sampleAuthor : User :=
  { id := 20, role := .user, gender := .other, country := ⟨1⟩,
    birthday := ⟨1980, 1, 1⟩, settings := none }

/-- An admin who is neither the respondent nor the author. -/
def sampleAdmin : User :=
  { id := 30, role := .admin, gender := .male, country := ⟨1⟩,
    birthday := ⟨1985, 2, 2⟩, settings := none }

/-- An unrestricted two-option question, `max_options = 2`,
`allow_user_options = false`. -/
def sampleQuestion : QuestionRow :=
  { id := 5, author_id := 20, max_options := 2, active_till := 100,
    allow_user_options := false, gender := none, country_id := none,
    age_range := none, total_answers := 0 }

def sampleOptionA : OptionRow :=
  { id := 1, question_id := 5, text := "A", position := 1, author_id := 20,
    by_question_author := true, count := 0, percentage := 0 }

def sampleOptionB : OptionRow :=
  { id := 2, question_id := 5, text := "B", position := 2, author_id := 20,
    by_question_author := true, count := 0, percentage := 0 }

/-- Fresh store: the sample question with options A and B, no answers. -/
def sampleDB : DB :=
  { questions := [sampleQuestion], options := [sampleOptionA, sampleOptionB],
    answers := [], answer_options := [] }

def sampleToday : DateD := ⟨2026, 10, 12⟩

/-- Store in which `sampleUser` has already answered the sample question
with both options, and a third option (id 7) exists on the question. -/
def sampleDBAnswered : DB :=
  { questions := [{ sampleQuestion with total_answers := 1 }],
    options := [{ sampleOptionA with count := 1, percentage := 50 },
                { sampleOptionB with count := 1, percentage := 50 },
                { sampleOptionA with id := 7, text := "C", position := 3 }],
    answers := [⟨1, 5, 10⟩],
    answer_options := [⟨1, 1⟩, ⟨1, 2⟩] }

/-! ## Lemmas and theorems -/

/-! ## Claims C3 and C10: the visibility policy -/


/-- Claim C3: For every `author_result_setting` in
{Nobody, PeopleIFollow, PeopleFollowingMe, AllConnections, All} and every
pair of booleans (`viewer_follows_author`, `author_follows_viewer`), the
expired-question visibility predicate equals: All → true; Nobody → false;
PeopleIFollow → `author_follows_viewer`; PeopleFollowingMe →
`viewer_follows_author`; AllConnections → either direction.  In
particular Nobody never yields true and All never yields false. -/
theorem visibility_table_complete :
    ∀ (s : ShowQuestionResultsEnum) (vfa afv : Bool),
      privacyVisible s vfa afv = visibleSpec s vfa afv
      ∧ privacyVisible .nobody vfa afv = false
      ∧ privacyVisible .all vfa afv = true := by
  intro s vfa afv
  refine ⟨?_, ?_, ?_⟩ <;> cases s <;> cases vfa <;> cases afv <;> rfl

/-- Claim C10: If the question author has no stored settings row (the outer
join yields SQL `NULL`), the other-mode feed's expired-question privacy
condition is false for every viewer and every follow-relation combination
— every expired question of that author is excluded, exactly as for the
`Nobody` setting — even though the in-memory `UserSettings` default for
`show_question_results` is All Connections. -/
theorem no_settings_row_hides_expired (active_till now : Int)
    (hExpired : active_till ≤ now) :
    ∀ (demographyOk vfa afv : Bool),
      otherFeedCondition true demographyOk active_till now none vfa afv = false
      ∧ otherFeedCondition true demographyOk active_till now none vfa afv
          = otherFeedCondition true demographyOk active_till now (some .nobody) vfa afv
      ∧ defaultUserSettings.show_question_results = .all_connections := by
  intro demographyOk vfa afv
  have hlt : ¬ (now < active_till) := not_lt.mpr hExpired
  refine ⟨?_, ?_, rfl⟩ <;>
    simp [otherFeedCondition, privacyCondition, hlt, hExpired]

/-- Witness for `no_settings_row_hides_expired` at `active_till = 5`,
`now = 7`. -/
theorem no_settings_row_hides_expired_witness :
    otherFeedCondition true true 5 7 none true true = false :=
  (no_settings_row_hides_expired 5 7 (by decide) true true true).1

/-- One truthiness-gated membership filter passes exactly when the filter
is absent, empty, or contains the profile value. -/
lemma gate_false_iff {α : Type} [DecidableEq α] (o : Option (List α)) (x : α) :
    (truthyList o && !(decide (x ∈ o.getD []))) = false
      ↔ (o = none ∨ o = some [] ∨ x ∈ o.getD []) := by
  cases o with
  | none => simp [truthyList]
  | some xs => cases xs <;> simp [truthyList] <;> tauto

/-- The age filter passes exactly when every present bound is respected. -/
lemma ageFails_false_iff (ar : Option RangeModel) (age : Int) :
    ageFails ar age = false
      ↔ (match ar with
         | none => True
         | some r =>
            (match r.start with | some lo => lo ≤ age | none => True)
            ∧ (match r.stop with | some hi => age ≤ hi | none => True)) := by
  cases ar with
  | none => simp [ageFails]
  | some r =>
    cases hs : r.start <;> cases he : r.stop <;> simp [ageFails, hs, he] <;> omega

/-- The eligibility check succeeds exactly when its three boolean gates
are all false. -/
lemma validateUserDemographics_ok_iff (user : User) (q : QuestionRow) (today : DateD) :
    validateUserDemographics user q today = .ok ()
      ↔ (truthyList q.gender && !(decide (user.gender ∈ q.gender.getD []))) = false
        ∧ (truthyList q.country_id && !(decide (user.country.id ∈ q.country_id.getD []))) = false
        ∧ ageFails q.age_range (computeAge today user.birthday) = false := by
  unfold validateUserDemographics
  split_ifs with h1 h2 h3 <;> simp_all

/-- Claim C6: the eligibility check is total — it either passes or reports a
demographic mismatch — and it passes exactly when all three dimensions of
the spec's eligibility predicate pass. -/
theorem eligibility_total_and_correct :
    ∀ (user : User) (q : QuestionRow) (today : DateD),
      (validateUserDemographics user q today = .ok () ↔ eligibleSpec user q today)
      ∧ (validateUserDemographics user q today = .ok ()
          ∨ validateUserDemographics user q today = .error .demographicMismatch) := by
  intro user q today
  constructor
  · rw [validateUserDemographics_ok_iff, gate_false_iff, gate_false_iff,
      ageFails_false_iff]
    exact Iff.rfl
  · unfold validateUserDemographics
    split_ifs <;> simp

/-! ## Freshness of allocated ids -/

lemma le_foldr_max {l : List Nat} {x : Nat} (hx : x ∈ l) : x ≤ l.foldr max 0 := by
  induction l with
  | nil => cases hx
  | cons a l ih =>
    rcases List.mem_cons.mp hx with rfl | h
    · exact le_max_left _ _
    · exact le_trans (ih h) (le_max_right _ _)

lemma nextOptionId_fresh {db : DB} {o : OptionRow} (ho : o ∈ db.options) :
    o.id < nextOptionId db :=
  Nat.lt_succ_of_le (le_foldr_max (List.mem_map_of_mem (·.id) ho))

lemma nextAnswerId_fresh {db : DB} {a : AnswerRow} (ha : a ∈ db.answers) :
    a.id < nextAnswerId db :=
  Nat.lt_succ_of_le (le_foldr_max (List.mem_map_of_mem (·.id) ha))

/-! ## Stage characterizations of the submission protocol -/


/-- What a successful `createOption` did to the state. -/
lemma createOption_ok {db : DB} {qid : Nat} {opt : QuestionOptionCreate}
    {user : User} {db' : DB} {row : OptionRow}
    (h : createOption db qid opt user = .ok (db', row)) :
    db'.options = db.options ++ [row]
    ∧ row.question_id = qid ∧ row.count = 0 ∧ row.id = nextOptionId db
    ∧ db'.questions = db.questions ∧ db'.answers = db.answers
    ∧ db'.answer_options = db.answer_options := by
  unfold createOption at h
  cases hfind : db.questions.find? (fun q => q.id == qid) with
  | none => rw [hfind] at h; exact absurd h (by simp)
  | some q =>
    rw [hfind] at h
    dsimp only at h
    split_ifs at h with h1 h2
    cases hpos : opt.position with
    | none => rw [hpos] at h; exact absurd h (by simp)
    | some p =>
      rw [hpos] at h
      simp only [Except.ok.injEq, Prod.mk.injEq] at h
      obtain ⟨hdb, hrow⟩ := h
      subst hdb; subst hrow
      refine ⟨rfl, rfl, rfl, rfl, rfl, rfl, rfl⟩

/-- What a successful `createOptionsLoop` did to the state: it appended
rows for the target question, each with a fresh id and zero count, and
returned their ids. -/
lemma createOptionsLoop_ok {creates : List QuestionOptionCreate}
    {db : DB} {qid : Nat} {user : User} {db' : DB} {ids : List Nat}
    (h : createOptionsLoop db qid creates user = .ok (db', ids)) :
    ∃ rows : List OptionRow,
      db'.options = db.options ++ rows
      ∧ ids = rows.map (·.id)
      ∧ (∀ r ∈ rows, r.question_id = qid ∧ r.count = 0)
      ∧ db'.questions = db.questions ∧ db'.answers = db.answers
      ∧ db'.answer_options = db.answer_options
      ∧ ((db.options.map (·.id)).Nodup → (db'.options.map (·.id)).Nodup) := by
  induction creates generalizing db ids with
  | nil =>
    unfold createOptionsLoop at h
    simp only [Except.ok.injEq, Prod.mk.injEq] at h
    obtain ⟨hdb, hids⟩ := h
    subst hdb; subst hids
    exact ⟨[], by simp⟩
  | cons c rest ih =>
    unfold createOptionsLoop at h
    cases h1 : createOption db qid c user with
    | error e => rw [h1] at h; exact absurd h (by simp)
    | ok val =>
      obtain ⟨db1, row⟩ := val
      rw [h1] at h
      dsimp only at h
      cases h2 : createOptionsLoop db1 qid rest user with
      | error e => rw [h2] at h; exact absurd h (by simp)
      | ok val2 =>
        obtain ⟨db2, ids2⟩ := val2
        rw [h2] at h
        dsimp only at h
        simp only [Except.ok.injEq, Prod.mk.injEq] at h
        obtain ⟨hdb, hids⟩ := h
        subst hdb; subst hids
        obtain ⟨hopts1, hq1, hc1, hid1, hqs1, has1, haos1⟩ := createOption_ok h1
        obtain ⟨rows, hopts2, hids2, hrows2, hqs2, has2, haos2, hnd2⟩ := ih h2
        refine ⟨row :: rows, ?_, ?_, ?_, ?_, ?_, ?_, ?_⟩
        · rw [hopts2, hopts1]; simp
        · simp [hids2]
        · intro r hr
          rcases List.mem_cons.mp hr with rfl | hr'
          · exact ⟨hq1, hc1⟩
          · exact hrows2 r hr'
        · rw [hqs2, hqs1]
        · rw [has2, has1]
        · rw [haos2, haos1]
        · intro hnd
          apply hnd2
          rw [hopts1]
          simp only [List.map_append, List.map_cons, List.map_nil]
          rw [List.nodup_append]
          refine ⟨hnd, List.nodup_singleton _, ?_⟩
          intro x hx
          simp only [List.mem_singleton]
          intro hx1
          obtain ⟨o, ho, hoid⟩ := List.mem_map.mp hx
          subst hx1
          rw [hid1] at hoid
          exact absurd hoid (Nat.ne_of_lt (nextOptionId_fresh ho))

/-- What a successful `newOptionsPhase` did to the state. -/
lemma newOptionsPhase_ok {db : DB} {qid : Nat} {q : QuestionRow} {user : User}
    {new_options : Option (List String)} {db' : DB} {ids : List Nat}
    (h : newOptionsPhase db qid q user new_options = .ok (db', ids)) :
    ∃ rows : List OptionRow,
      db'.options = db.options ++ rows
      ∧ ids = rows.map (·.id)
      ∧ (∀ r ∈ rows, r.question_id = qid ∧ r.count = 0)
      ∧ db'.questions = db.questions ∧ db'.answers = db.answers
      ∧ db'.answer_options = db.answer_options
      ∧ ((db.options.map (·.id)).Nodup → (db'.options.map (·.id)).Nodup) := by
  unfold newOptionsPhase at h
  dsimp only at h
  split_ifs at h with hEmpty hAllow
  · simp only [Except.ok.injEq, Prod.mk.injEq] at h
    obtain ⟨hdb, hids⟩ := h
    subst hdb; subst hids
    exact ⟨[], by simp⟩
  · cases h3 : assignPositions
        ((new_options.getD []).map
          (fun t => ({ text := t, position := none } : QuestionOptionCreate)))
        ((questionOptions db qid).map (·.position)) with
    | error e => rw [h3] at h; exact absurd h (by simp)
    | ok creates' => rw [h3] at h; exact createOptionsLoop_ok h

/-- What a successful `checksPhase` established. -/
lemma checksPhase_ok {db : DB} {qid : Nat} {user : User} {today : DateD}
    {now : Int} {q : QuestionRow}
    (h : checksPhase db qid user today now = .ok q) :
    db.answers.find? (fun a => a.question_id == qid && a.user_id == user.id) = none
    ∧ q ∈ db.questions ∧ q.id = qid := by
  unfold checksPhase at h
  cases h1 : db.answers.find? (fun a => a.question_id == qid && a.user_id == user.id) with
  | some a => rw [h1] at h; exact absurd h (by simp)
  | none =>
    rw [h1] at h
    dsimp only at h
    cases h2 : db.questions.find? (fun q => q.id == qid) with
    | none => rw [h2] at h; exact absurd h (by simp)
    | some q0 =>
      rw [h2] at h
      dsimp only at h
      cases h3 : validateQuestionActive q0 now with
      | error e => rw [h3] at h; exact absurd h (by simp)
      | ok u =>
        rw [h3] at h
        dsimp only at h
        cases h4 : validateUserDemographics user q0 today with
        | error e => rw [h4] at h; exact absurd h (by simp)
        | ok u' =>
          rw [h4] at h
          dsimp only at h
          simp only [Except.ok.injEq] at h
          subst h
          refine ⟨rfl, List.mem_of_find?_eq_some h2, ?_⟩
          have := List.find?_some h2
          simpa using this

/-- What a successful `getOptionsByIds` established: it returned exactly
the rows whose id is requested, and every requested id is present. -/
lemma getOptionsByIds_ok {db : DB} {ids : List Nat} {opts : List OptionRow}
    (h : getOptionsByIds db ids = .ok opts) :
    opts = db.options.filter (fun o => ids.contains o.id)
    ∧ ∀ i ∈ ids, ∃ o ∈ opts, o.id = i := by
  unfold getOptionsByIds at h
  dsimp only at h
  split_ifs at h with hall
  simp only [Except.ok.injEq] at h
  subst h
  refine ⟨rfl, ?_⟩
  intro i hi
  have := List.all_eq_true.mp hall i hi
  have hmem : i ∈ (db.options.filter (fun o => ids.contains o.id)).map (·.id) := by
    simpa using this
  obtain ⟨o, ho, hoid⟩ := List.mem_map.mp hmem
  exact ⟨o, ho, hoid⟩

/-- What a successful `validateSelection` established. -/
lemma validateSelection_ok {db : DB} {q : QuestionRow}
    {all_option_ids explicit : List Nat}
    (h : validateSelection db q all_option_ids explicit = .ok ()) :
    all_option_ids ≠ []
    ∧ all_option_ids.length ≤ q.max_options
    ∧ ∀ i ∈ explicit, ∃ o ∈ db.options, o.id = i ∧ o.question_id = q.id := by
  unfold validateSelection at h
  split_ifs at h with hEmpty hMax hExpl
  · refine ⟨by simpa using hEmpty, by omega, ?_⟩
    intro i hi
    rw [List.isEmpty_iff] at hExpl
    subst hExpl
    cases hi
  · refine ⟨by simpa using hEmpty, by omega, ?_⟩
    cases hget : getOptionsByIds db explicit with
    | error e => rw [hget] at h; exact absurd h (by simp)
    | ok opts =>
      rw [hget] at h
      dsimp only at h
      cases hfind : opts.find? (fun o => !(o.question_id == q.id)) with
      | some o => rw [hfind] at h; exact absurd h (by simp)
      | none =>
        obtain ⟨hopts, hids⟩ := getOptionsByIds_ok hget
        intro i hi
        obtain ⟨o, ho, hoid⟩ := hids i hi
        refine ⟨o, ?_, hoid, ?_⟩
        · rw [hopts] at ho
          exact List.mem_of_mem_filter ho
        · have := List.find?_eq_none.mp hfind o ho
          simpa using this

/-- What a successful `writePhase` did to the state. -/
lemma writePhase_ok {db : DB} {qid uid : Nat} {all_option_ids : List Nat}
    {db2 : DB} {aid : Nat}
    (h : writePhase db qid uid all_option_ids = .ok (db2, aid)) :
    aid = nextAnswerId db
    ∧ all_option_ids.Nodup
    ∧ db2.questions = db.questions.map (bumpTotal qid)
    ∧ db2.options = db.options.map (tallyUpdate qid all_option_ids.dedup
        (((questionOptions db qid).map (·.count)).sum + all_option_ids.dedup.length))
    ∧ db2.answers = db.answers ++ [⟨nextAnswerId db, qid, uid⟩]
    ∧ db2.answer_options = db.answer_options
        ++ all_option_ids.map (fun oid => (⟨nextAnswerId db, oid⟩ : AnswerOptionRow)) := by
  unfold writePhase at h
  split_ifs at h with h1 h2 h3
  have hcond : all_option_ids.Nodup
      ∧ ∀ i ∈ all_option_ids, db.options.any (fun o => o.id == i) := by
    by_contra hc
    simp only [hc] at h3
    exact h3 rfl
  dsimp only at h
  simp only [Except.ok.injEq, Prod.mk.injEq] at h
  obtain ⟨hdb, haid⟩ := h
  subst hdb
  subst haid
  exact ⟨rfl, hcond.1, rfl, rfl, rfl, rfl⟩

/-! ## Counting lemmas for the tally -/

lemma tallyUpdate_id (qid : Nat) (sel : List Nat) (total : Nat) (o : OptionRow) :
    (tallyUpdate qid sel total o).id = o.id := by
  unfold tallyUpdate; split_ifs <;> rfl

lemma tallyUpdate_question_id (qid : Nat) (sel : List Nat) (total : Nat)
    (o : OptionRow) :
    (tallyUpdate qid sel total o).question_id = o.question_id := by
  unfold tallyUpdate; split_ifs <;> rfl

lemma tallyUpdate_count (qid : Nat) (sel : List Nat) (total : Nat) {o : OptionRow}
    (hq : o.question_id = qid) :
    (tallyUpdate qid sel total o).count = o.count + (if o.id ∈ sel then 1 else 0) := by
  unfold tallyUpdate
  simp [hq]

lemma tallyUpdate_other (qid : Nat) (sel : List Nat) (total : Nat) {o : OptionRow}
    (hq : o.question_id ≠ qid) :
    tallyUpdate qid sel total o = o := by
  unfold tallyUpdate
  simp [hq]

/-- Filtering the tallied options for the tallied question commutes with
the update. -/
lemma filter_map_tally (opts : List OptionRow) (qid : Nat) (sel : List Nat)
    (total : Nat) :
    (opts.map (tallyUpdate qid sel total)).filter (fun o => o.question_id == qid)
      = (opts.filter (fun o => o.question_id == qid)).map (tallyUpdate qid sel total) := by
  induction opts with
  | nil => rfl
  | cons o t ih =>
    by_cases hq : o.question_id = qid
    · simp [List.filter_cons, tallyUpdate_question_id, hq, ih]
    · simp [List.filter_cons, tallyUpdate_question_id, hq, ih]

/-- Options of a different question are untouched by the tally. -/
lemma filter_map_tally_other (opts : List OptionRow) {qid qv : Nat}
    (sel : List Nat) (total : Nat) (hne : qv ≠ qid) :
    (opts.map (tallyUpdate qid sel total)).filter (fun o => o.question_id == qv)
      = opts.filter (fun o => o.question_id == qv) := by
  induction opts with
  | nil => rfl
  | cons o t ih =>
    by_cases hq : o.question_id = qv
    · have : o.question_id ≠ qid := by rw [hq]; exact hne
      simp [List.filter_cons, tallyUpdate_question_id, tallyUpdate_other qid sel total this, hq, ih]
    · simp [List.filter_cons, tallyUpdate_question_id, hq, ih]

/-- Over rows of the tallied question, the new counts sum to the old sum
plus the number of rows whose id is selected. -/
lemma sum_counts_tally (l : List OptionRow) (qid : Nat) (sel : List Nat)
    (total : Nat) (hl : ∀ o ∈ l, o.question_id = qid) :
    ((l.map (tallyUpdate qid sel total)).map (·.count)).sum
      = (l.map (·.count)).sum + l.countP (fun o => decide (o.id ∈ sel)) := by
  induction l with
  | nil => rfl
  | cons o t ih =>
    have ho := hl o (List.mem_cons_self o t)
    have ht : ∀ o ∈ t, o.question_id = qid := fun x hx => hl x (List.mem_cons_of_mem o hx)
    simp only [List.map_cons, List.sum_cons, List.countP_cons, ih ht,
      tallyUpdate_count qid sel total ho]
    by_cases hmem : o.id ∈ sel <;> simp [hmem] <;> omega

/-- With unique row ids, the rows whose id lies in a duplicate-free list
`sel` of present ids number exactly `sel.length`. -/
lemma countP_sel (l : List OptionRow) (sel : List Nat)
    (hnd_l : (l.map (·.id)).Nodup) (hnd_sel : sel.Nodup)
    (hsub : ∀ s ∈ sel, ∃ o ∈ l, o.id = s) :
    l.countP (fun o => decide (o.id ∈ sel)) = sel.length := by
  rw [List.countP_eq_length_filter]
  have hlen : (l.filter (fun o => decide (o.id ∈ sel))).length
      = ((l.filter (fun o => decide (o.id ∈ sel))).map (·.id)).length := by
    rw [List.length_map]
  rw [hlen]
  set m := (l.filter (fun o => decide (o.id ∈ sel))).map (·.id) with hm
  have hnd_m : m.Nodup := by
    apply List.Nodup.sublist _ hnd_l
    exact List.Sublist.map _ (List.filter_sublist l)
  have hmem : ∀ x, x ∈ m ↔ x ∈ sel := by
    intro x
    constructor
    · intro hx
      obtain ⟨o, ho, hoid⟩ := List.mem_map.mp hx
      have := List.of_mem_filter ho
      simp only [decide_eq_true_eq] at this
      rwa [hoid] at this
    · intro hx
      obtain ⟨o, ho, hoid⟩ := hsub x hx
      apply List.mem_map.mpr
      refine ⟨o, ?_, hoid⟩
      apply List.mem_filter.mpr
      refine ⟨ho, ?_⟩
      simp only [decide_eq_true_eq]
      rwa [hoid]
  have hfin : m.toFinset = sel.toFinset := by
    apply Finset.ext
    intro x
    simp only [List.mem_toFinset]
    exact hmem x
  have h1 := List.toFinset_card_of_nodup hnd_m
  have h2 := List.toFinset_card_of_nodup hnd_sel
  rw [← h1, ← h2, hfin]

/-- Appending zero-count option rows changes no question's count sum. -/
lemma sumCounts_append_rows {db1 db : DB} {rows : List OptionRow} (qv : Nat)
    (hopts : db1.options = db.options ++ rows)
    (hrows : ∀ r ∈ rows, r.count = 0) :
    sumCounts db1 qv = sumCounts db qv := by
  unfold sumCounts questionOptions
  rw [hopts]
  simp only [List.filter_append, List.map_append, List.sum_append]
  have : ((rows.filter (fun o => o.question_id == qv)).map (·.count)).sum = 0 := by
    apply List.sum_eq_zero
    intro x hx
    obtain ⟨o, ho, hoc⟩ := List.mem_map.mp hx
    rw [← hoc]
    exact hrows o (List.mem_of_mem_filter ho)
  omega

/-- Effect of the write phase's inserts on the per-question selection sum:
the sum at `qv` grows by the new links exactly when the new answer belongs
to `qv`. -/
lemma sumSelections_write {db2 db : DB} (qv : Nat) {qid aid uid : Nat}
    {links : List AnswerOptionRow}
    (hA : db2.answers = db.answers ++ [⟨aid, qid, uid⟩])
    (hAO : db2.answer_options = db.answer_options ++ links)
    (hfa : ∀ a ∈ db.answers, a.id ≠ aid)
    (hfao : ∀ ao ∈ db.answer_options, ao.answer_id ≠ aid)
    (hlinks : ∀ l ∈ links, l.answer_id = aid) :
    sumSelections db2 qv
      = sumSelections db qv + (if qid = qv then links.length else 0) := by
  unfold sumSelections selectionsOf
  rw [hA, hAO]
  simp only [List.filter_append, List.map_append, List.sum_append]
  have hmap : (db.answers.filter (fun a => a.question_id == qv)).map
      (fun a => (db.answer_options ++ links).countP (fun ao => ao.answer_id == a.id))
      = (db.answers.filter (fun a => a.question_id == qv)).map
        (fun a => db.answer_options.countP (fun ao => ao.answer_id == a.id)) := by
    apply List.map_congr_left
    intro a ha
    have haa : a ∈ db.answers := List.mem_of_mem_filter ha
    rw [List.countP_append]
    have hz : links.countP (fun ao => ao.answer_id == a.id) = 0 := by
      apply List.countP_eq_zero.mpr
      intro l hl
      have h1 := hlinks l hl
      have h2 := hfa a haa
      simp [h1]
      omega
    omega
  rw [hmap]
  by_cases hq : qid = qv
  · subst hq
    have hfilter : ([(⟨aid, qid, uid⟩ : AnswerRow)].filter
        (fun a => a.question_id == qid)) = [⟨aid, qid, uid⟩] := by simp
    rw [hfilter]
    simp only [List.map_cons, List.map_nil, List.sum_cons, List.sum_nil]
    rw [List.countP_append]
    have hz : db.answer_options.countP
        (fun ao => ao.answer_id == (⟨aid, qid, uid⟩ : AnswerRow).id) = 0 := by
      apply List.countP_eq_zero.mpr
      intro ao hao
      have := hfao ao hao
      simp
      omega
    have hfull : links.countP
        (fun ao => ao.answer_id == (⟨aid, qid, uid⟩ : AnswerRow).id) = links.length := by
      apply List.countP_eq_length.mpr
      intro l hl
      have := hlinks l hl
      simp [this]
    rw [hz, hfull]
    simp
  · have hfilter : ([(⟨aid, qid, uid⟩ : AnswerRow)].filter
        (fun a => a.question_id == qv)) = [] := by simp [hq]
    rw [hfilter]
    simp [hq]

/-- Full decomposition of a successful `createAnswerInner` run. -/
lemma createAnswerInner_ok {db : DB} {qid : Nat} {ans : AnswerCreate}
    {user : User} {today : DateD} {now : Int} {db2 : DB} {aid : Nat}
    (h : createAnswerInner db qid ans user today now = .ok (db2, aid)) :
    ∃ (q : QuestionRow) (db1 : DB) (newIds : List Nat) (rows : List OptionRow),
      checksPhase db qid user today now = .ok q
      ∧ db1.options = db.options ++ rows
      ∧ newIds = rows.map (·.id)
      ∧ (∀ r ∈ rows, r.question_id = qid ∧ r.count = 0)
      ∧ db1.questions = db.questions ∧ db1.answers = db.answers
      ∧ db1.answer_options = db.answer_options
      ∧ ((db.options.map (·.id)).Nodup → (db1.options.map (·.id)).Nodup)
      ∧ validateSelection db1 q (ans.options ++ newIds) ans.options = .ok ()
      ∧ writePhase db1 qid user.id (ans.options ++ newIds) = .ok (db2, aid) := by
  unfold createAnswerInner at h
  cases h1 : checksPhase db qid user today now with
  | error e => rw [h1] at h; exact absurd h (by simp)
  | ok q =>
    rw [h1] at h
    dsimp only at h
    cases h2 : newOptionsPhase db qid q user ans.new_options with
    | error e => rw [h2] at h; exact absurd h (by simp)
    | ok val =>
      obtain ⟨db1, newIds⟩ := val
      rw [h2] at h
      dsimp only at h
      cases h3 : validateSelection db1 q (ans.options ++ newIds) ans.options with
      | error e => rw [h3] at h; exact absurd h (by simp)
      | ok u =>
        rw [h3] at h
        dsimp only at h
        obtain ⟨rows, hopts, hids, hrows, hqs, has, haos, hnd⟩ := newOptionsPhase_ok h2
        exact ⟨q, db1, newIds, rows, rfl, hopts, hids, hrows, hqs, has, haos, hnd, h3, h⟩

/-- Mapping a row-id-preserving function leaves the id column unchanged. -/
lemma map_id_tally (l : List OptionRow) (qid : Nat) (sel : List Nat)
    (total : Nat) :
    (l.map (tallyUpdate qid sel total)).map (·.id) = l.map (·.id) := by
  rw [List.map_map]
  apply List.map_congr_left
  intro o _
  exact tallyUpdate_id qid sel total o

/-- One submission preserves well-formedness and the conservation
invariant of every question. -/
lemma createAnswer_preserves (db : DB) (qidT : Nat) (ans : AnswerCreate)
    (user : User) (today : DateD) (now : Int) (hWF : WF db) :
    WF (createAnswer db qidT ans user today now).2
    ∧ ∀ qv, consistent db qv →
        consistent (createAnswer db qidT ans user today now).2 qv := by
  unfold createAnswer
  cases h : createAnswerInner db qidT ans user today now with
  | error e => exact ⟨hWF, fun _ hc => hc⟩
  | ok val =>
    obtain ⟨db2, aid⟩ := val
    dsimp only
    obtain ⟨q, db1, newIds, rows, hchk, hopts, hids, hrows, hqs, has, haos,
      hnd, hsel, hwrite⟩ := createAnswerInner_ok h
    obtain ⟨haid, hnodup, hq2, ho2, ha2, hao2⟩ := writePhase_ok hwrite
    obtain ⟨hWFopts, hWFans, hWFlink⟩ := hWF
    obtain ⟨hchk1, hqmem, hqid⟩ := checksPhase_ok hchk
    obtain ⟨hne, hlen, hexplicit⟩ := validateSelection_ok hsel
    set all := ans.options ++ newIds with hall
    have hdedup : all.dedup = all := List.dedup_eq_self.mpr hnodup
    have f1 : (db1.options.map (·.id)).Nodup := hnd hWFopts
    -- every selected id is an option row of the target question in db1
    have f2 : ∀ s ∈ all, ∃ o ∈ db1.options, o.id = s ∧ o.question_id = qidT := by
      intro s hs
      rcases List.mem_append.mp hs with hs1 | hs2
      · obtain ⟨o, ho, hoid, hoq⟩ := hexplicit s hs1
        exact ⟨o, ho, hoid, by rw [hoq, hqid]⟩
      · rw [hids] at hs2
        obtain ⟨r, hr, hrid⟩ := List.mem_map.mp hs2
        refine ⟨r, ?_, hrid, (hrows r hr).1⟩
        rw [hopts]
        exact List.mem_append_right _ hr
    -- freshness of the answer id
    have hfa : ∀ a ∈ db1.answers, a.id ≠ nextAnswerId db1 :=
      fun a ha => Nat.ne_of_lt (nextAnswerId_fresh ha)
    have hfao : ∀ ao ∈ db1.answer_options, ao.answer_id ≠ nextAnswerId db1 := by
      intro ao hao
      rw [haos] at hao
      have := hWFlink ao hao
      obtain ⟨a, ha, haid'⟩ := List.mem_map.mp this
      rw [← haid']
      apply Nat.ne_of_lt
      apply nextAnswerId_fresh
      rw [has]
      exact ha
    have hlinks : ∀ l ∈ all.map
        (fun oid => (⟨nextAnswerId db1, oid⟩ : AnswerOptionRow)),
        l.answer_id = nextAnswerId db1 := by
      intro l hl
      obtain ⟨oid, _, hoid⟩ := List.mem_map.mp hl
      rw [← hoid]
    constructor
    · -- WF db2
      refine ⟨?_, ?_, ?_⟩
      · rw [ho2, map_id_tally]
        exact f1
      · rw [ha2, has]
        simp only [List.map_append, List.map_cons, List.map_nil]
        rw [List.nodup_append]
        refine ⟨hWFans, List.nodup_singleton _, ?_⟩
        intro x hx
        simp only [List.mem_singleton]
        intro hx1
        subst hx1
        obtain ⟨a, ha, haid'⟩ := List.mem_map.mp hx
        have : a ∈ db1.answers := by rw [has]; exact ha
        exact Nat.ne_of_lt (nextAnswerId_fresh this) haid'
      · intro ao hao
        rw [hao2, haos] at hao
        rw [ha2]
        simp only [List.map_append, List.map_cons, List.map_nil]
        rcases List.mem_append.mp hao with h1 | h1
        · apply List.mem_append_left
          rw [has]
          exact hWFlink ao h1
        · apply List.mem_append_right
          obtain ⟨oid, _, hoid⟩ := List.mem_map.mp h1
          rw [← hoid]
          simp
    · -- conservation for every question
      intro qv hc
      unfold consistent at hc ⊢
      have hcounts2 : sumCounts db2 qv
          = sumCounts db1 qv + (if qidT = qv then all.length else 0) := by
        by_cases hq : qidT = qv
        · subst hq
          unfold sumCounts questionOptions
          rw [ho2, hdedup, filter_map_tally]
          rw [sum_counts_tally _ qidT all _ (fun o ho => by
            have := List.of_mem_filter ho
            simpa using this)]
          rw [countP_sel _ all
            (List.Nodup.sublist (List.Sublist.map _ (List.filter_sublist _)) f1)
            hnodup
            (fun s hs => by
              obtain ⟨o, ho, hoid, hoq⟩ := f2 s hs
              refine ⟨o, ?_, hoid⟩
              apply List.mem_filter.mpr
              exact ⟨ho, by simp [hoq]⟩)]
          simp
        · unfold sumCounts questionOptions
          rw [ho2, filter_map_tally_other _ _ _ (fun hqq => hq hqq.symm)]
          simp [hq]
      have hcounts1 : sumCounts db1 qv = sumCounts db qv :=
        sumCounts_append_rows qv hopts (fun r hr => (hrows r hr).2)
      have hselsum2 : sumSelections db2 qv
          = sumSelections db1 qv + (if qidT = qv then all.length else 0) := by
        have := sumSelections_write qv ha2 hao2 hfa hfao hlinks
        rw [this]
        congr 1
        by_cases hq : qidT = qv <;> simp [hq, List.length_map]
      have hselsum1 : sumSelections db1 qv = sumSelections db qv := by
        unfold sumSelections selectionsOf
        rw [has, haos]
      rw [hcounts2, hcounts1, hselsum2, hselsum1, hc]

/-! ## Claim C1: conservation invariant -/


/-- Claim C1: For every question, after any sequence of successful submit
operations starting from a consistent (and schema-well-formed) state, the
sum of `count` over the question's options equals the sum over that
question's Answers of the number of selected options (AnswerOption
rows).  Failed submissions roll back and leave the state unchanged, so an
arbitrary request sequence preserves the invariant. -/
theorem conservation_invariant (db : DB) (reqs : List SubmitReq) (qid : Nat)
    (hWF : WF db) (hc : consistent db qid) :
    consistent (runSubmissions db reqs) qid := by
  have main : ∀ (rs : List SubmitReq) (d : DB), WF d → consistent d qid →
      WF (runSubmissions d rs) ∧ consistent (runSubmissions d rs) qid := by
    intro rs
    induction rs with
    | nil => intro d h1 h2; exact ⟨h1, h2⟩
    | cons r rest ih =>
      intro d h1 h2
      have step := createAnswer_preserves d r.question_id r.answer r.user
        r.today r.now h1
      unfold runSubmissions
      exact ih _ step.1 (step.2 qid h2)
  exact (main reqs db hWF hc).2

/-- Witness for `conservation_invariant`: a concrete well-formed,
consistent store and one concrete (successful) submission. -/
theorem conservation_invariant_witness :
    consistent (runSubmissions sampleDB
      [⟨5, { options := [1] }, sampleUser, sampleToday, 50⟩]) 5 :=
  conservation_invariant sampleDB
    [⟨5, { options := [1] }, sampleUser, sampleToday, 50⟩] 5
    (by refine ⟨?_, ?_, ?_⟩ <;> decide) (by decide)

/-! ## Claim C2: idempotency -/

lemma find?_append_none {α : Type} (p : α → Bool) (l1 l2 : List α)
    (h : l1.find? p = none) : (l1 ++ l2).find? p = l2.find? p := by
  induction l1 with
  | nil => rfl
  | cons a t ih =>
    rw [List.find?_cons] at h
    cases hpa : p a with
    | true => rw [hpa] at h; exact absurd h (by simp)
    | false =>
      rw [hpa] at h
      rw [List.cons_append, List.find?_cons, hpa]
      exact ih h

/-- Claim C2: if a submission succeeds, no answer for the (question,
respondent) pair existed before, exactly one exists afterwards, and any
repeated submission for the same pair fails `AlreadyAnswered` and changes
nothing. -/
theorem submit_idempotent (db : DB) (qid : Nat) (ans : AnswerCreate)
    (user : User) (today : DateD) (now : Int) (aid : Nat) (db' : DB)
    (h : createAnswer db qid ans user today now = (.ok aid, db')) :
    answersFor db qid user.id = 0
    ∧ answersFor db' qid user.id = 1
    ∧ ∀ (ans2 : AnswerCreate) (today2 : DateD) (now2 : Int),
        createAnswer db' qid ans2 user today2 now2 = (.error .alreadyAnswered, db') := by
  have hinner : createAnswerInner db qid ans user today now = .ok (db', aid) := by
    unfold createAnswer at h
    cases hi : createAnswerInner db qid ans user today now with
    | error e => rw [hi] at h; simp at h
    | ok val =>
      obtain ⟨d2, a2⟩ := val
      rw [hi] at h
      simp only [Prod.mk.injEq, Except.ok.injEq] at h
      rw [h.1, h.2]
  obtain ⟨q, db1, newIds, rows, hchk, hopts, hids, hrows, hqs, has, haos,
    hnd, hsel, hwrite⟩ := createAnswerInner_ok hinner
  obtain ⟨haid, hnodup, hq2, ho2, ha2, hao2⟩ := writePhase_ok hwrite
  obtain ⟨hfind, _, _⟩ := checksPhase_ok hchk
  have hanswers : db'.answers = db.answers
      ++ [⟨nextAnswerId db1, qid, user.id⟩] := by rw [ha2, has]
  have hcount0 : answersFor db qid user.id = 0 := by
    unfold answersFor
    apply List.countP_eq_zero.mpr
    intro a ha
    exact List.find?_eq_none.mp hfind a ha
  refine ⟨hcount0, ?_, ?_⟩
  · unfold answersFor
    rw [hanswers, List.countP_append]
    unfold answersFor at hcount0
    rw [hcount0]
    simp
  · intro ans2 today2 now2
    have hfind' : db'.answers.find?
        (fun a => a.question_id == qid && a.user_id == user.id)
        = some ⟨nextAnswerId db1, qid, user.id⟩ := by
      rw [hanswers, find?_append_none _ _ _ hfind]
      simp
    have hinner2 : createAnswerInner db' qid ans2 user today2 now2
        = .error .alreadyAnswered := by
      unfold createAnswerInner checksPhase
      rw [hfind']
    unfold createAnswer
    rw [hinner2]

/-- Witness for `submit_idempotent`: one concrete successful submission,
then a repeat.  The repeat returns `AlreadyAnswered` and the pair has
exactly one stored answer. -/
theorem submit_idempotent_witness :
    answersFor (createAnswer sampleDB 5 { options := [1] } sampleUser
      sampleToday 50).2 5 10 = 1
    ∧ (createAnswer (createAnswer sampleDB 5 { options := [1] } sampleUser
        sampleToday 50).2 5 { options := [1, 2] } sampleUser sampleToday 60).1
      = .error .alreadyAnswered := by
  have h := submit_idempotent sampleDB 5 { options := [1] } sampleUser
    sampleToday 50
    (createAnswer sampleDB 5 { options := [1] } sampleUser sampleToday 50).1.toOption.get!
    (createAnswer sampleDB 5 { options := [1] } sampleUser sampleToday 50).2
    (by
      have h1 : (createAnswer sampleDB 5 { options := [1] } sampleUser
        sampleToday 50).1 = .ok 1 := rfl
      exact Prod.ext (by rw [h1]; rfl) rfl)
  exact ⟨h.2.1, by rw [(h.2.2 { options := [1, 2] } sampleToday 60)]⟩

/-! ## Claim C9: failed validation leaves no trace -/


/-- Claim C9: whenever submit fails with a validation error
(AlreadyAnswered, QuestionExpired, DemographicMismatch,
CustomOptionsNotAllowed, TooManyOptions, OptionMismatch), the returned
state is the input state: no Answer or AnswerOption row was added, no new
option persists, and `total_answers` and every option's count and
percentage are unchanged. -/
theorem validation_failure_is_clean (db : DB) (qid : Nat) (ans : AnswerCreate)
    (user : User) (today : DateD) (now : Int) (e : ApiError)
    (h : (createAnswer db qid ans user today now).1 = .error e)
    (he : e = .alreadyAnswered ∨ e = .questionExpired ∨ e = .demographicMismatch
        ∨ e = .customOptionsNotAllowed ∨ e = .tooManyOptions ∨ e = .optionMismatch) :
    (createAnswer db qid ans user today now).2 = db
    ∧ (createAnswer db qid ans user today now).2.answers = db.answers
    ∧ (createAnswer db qid ans user today now).2.answer_options = db.answer_options
    ∧ (createAnswer db qid ans user today now).2.options = db.options
    ∧ (createAnswer db qid ans user today now).2.questions = db.questions := by
  unfold createAnswer at h ⊢
  cases hi : createAnswerInner db qid ans user today now with
  | ok val =>
    obtain ⟨d2, a2⟩ := val
    rw [hi] at h
    simp at h
  | error e' =>
    exact ⟨rfl, rfl, rfl, rfl, rfl⟩

/-- Witness for `validation_failure_is_clean`: a duplicate submission
fails `AlreadyAnswered` and every table is returned unchanged. -/
theorem validation_failure_is_clean_witness :
    (createAnswer sampleDBAnswered 5 { options := [2] } sampleUser
      sampleToday 50).2 = sampleDBAnswered :=
  (validation_failure_is_clean sampleDBAnswered 5 { options := [2] }
    sampleUser sampleToday 50 .alreadyAnswered rfl (Or.inl rfl)).1

/-! ## Claim C7: percentage normalization -/

lemma sum_map_mul_const {α : Type} (l : List α) (f : α → ℚ) (k : ℚ) :
    (l.map (fun x => f x * k)).sum = (l.map f).sum * k := by
  induction l with
  | nil => simp
  | cons a t ih => simp [ih, add_mul]

lemma cast_sum_nat {α : Type} (l : List α) (g : α → Nat) :
    (l.map (fun x => ((g x : ℚ)))).sum = (((l.map g).sum : Nat) : ℚ) := by
  induction l with
  | nil => simp
  | cons a t ih => simp [ih]

/-- Claim C7: after every successful submit, each option of the question
carries `percentage = count * 100 / total_selections` where
`total_selections` is the sum of the options' previous counts plus the
number of AnswerOption rows of the new answer; the total is positive, and
the percentages of the question's options sum to exactly 100. -/
theorem percentage_normalization (db : DB) (qid : Nat) (ans : AnswerCreate)
    (user : User) (today : DateD) (now : Int) (aid : Nat) (db' : DB)
    (hWF : WF db)
    (h : createAnswer db qid ans user today now = (.ok aid, db')) :
    0 < sumCounts db qid
        + db'.answer_options.countP (fun ao => ao.answer_id == aid)
    ∧ (∀ o ∈ db'.options, o.question_id = qid →
        o.percentage = (o.count : ℚ) * 100
          / ((sumCounts db qid
              + db'.answer_options.countP (fun ao => ao.answer_id == aid) : Nat) : ℚ))
    ∧ ((questionOptions db' qid).map (·.percentage)).sum = 100 := by
  have hinner : createAnswerInner db qid ans user today now = .ok (db', aid) := by
    unfold createAnswer at h
    cases hi : createAnswerInner db qid ans user today now with
    | error e => rw [hi] at h; simp at h
    | ok val =>
      obtain ⟨d2, a2⟩ := val
      rw [hi] at h
      simp only [Prod.mk.injEq, Except.ok.injEq] at h
      rw [h.1, h.2]
  obtain ⟨q, db1, newIds, rows, hchk, hopts, hids, hrows, hqs, has, haos,
    hnd, hsel, hwrite⟩ := createAnswerInner_ok hinner
  obtain ⟨haid, hnodup, hq2, ho2, ha2, hao2⟩ := writePhase_ok hwrite
  obtain ⟨hWFopts, hWFans, hWFlink⟩ := hWF
  obtain ⟨hchk1, hqmem, hqid⟩ := checksPhase_ok hchk
  obtain ⟨hne, hlen, hexplicit⟩ := validateSelection_ok hsel
  set all := ans.options ++ newIds with hall
  have hdedup : all.dedup = all := List.dedup_eq_self.mpr hnodup
  have f1 : (db1.options.map (·.id)).Nodup := hnd hWFopts
  have f2 : ∀ s ∈ all, ∃ o ∈ db1.options, o.id = s ∧ o.question_id = qid := by
    intro s hs
    rcases List.mem_append.mp hs with hs1 | hs2
    · obtain ⟨o, ho, hoid, hoq⟩ := hexplicit s hs1
      exact ⟨o, ho, hoid, by rw [hoq, hqid]⟩
    · rw [hids] at hs2
      obtain ⟨r, hr, hrid⟩ := List.mem_map.mp hs2
      refine ⟨r, ?_, hrid, (hrows r hr).1⟩
      rw [hopts]
      exact List.mem_append_right _ hr
  set T0 := ((questionOptions db1 qid).map (·.count)).sum + all.length with hT0
  have hcountlinks : db'.answer_options.countP (fun ao => ao.answer_id == aid)
      = all.length := by
    rw [hao2, haid, List.countP_append]
    have hz : db1.answer_options.countP
        (fun ao => ao.answer_id == nextAnswerId db1) = 0 := by
      apply List.countP_eq_zero.mpr
      intro ao hao
      rw [haos] at hao
      have := hWFlink ao hao
      obtain ⟨a, ha, haid'⟩ := List.mem_map.mp this
      have hlt : a.id < nextAnswerId db1 := by
        apply nextAnswerId_fresh
        rw [has]
        exact ha
      simp only [beq_iff_eq]
      omega
    have hfull : (all.map (fun oid =>
        (⟨nextAnswerId db1, oid⟩ : AnswerOptionRow))).countP
        (fun ao => ao.answer_id == nextAnswerId db1) = all.length := by
      rw [← List.length_map all (fun oid =>
        (⟨nextAnswerId db1, oid⟩ : AnswerOptionRow))]
      apply List.countP_eq_length.mpr
      intro l hl
      obtain ⟨oid, _, hoid⟩ := List.mem_map.mp hl
      rw [← hoid]
      simp
    rw [hz, hfull]
    omega
  have hsum1 : sumCounts db1 qid = sumCounts db qid :=
    sumCounts_append_rows qid hopts (fun r hr => (hrows r hr).2)
  have hT : sumCounts db qid
      + db'.answer_options.countP (fun ao => ao.answer_id == aid) = T0 := by
    rw [hcountlinks, hT0, ← hsum1]
    rfl
  have hTpos : 0 < T0 := by
    have : all.length ≠ 0 := fun hz => hne (List.length_eq_zero.mp hz)
    omega
  have ho2' : db'.options = db1.options.map (tallyUpdate qid all T0) := by
    rw [ho2, hdedup]
  refine ⟨by omega, ?_, ?_⟩
  · intro o ho hoq
    rw [hT]
    rw [ho2'] at ho
    obtain ⟨o0, ho0, ho0eq⟩ := List.mem_map.mp ho
    have ho0q : o0.question_id = qid := by
      rw [← hoq, ← ho0eq, tallyUpdate_question_id]
    rw [← ho0eq]
    unfold tallyUpdate
    simp only [ho0q, beq_self_eq_true, if_true, hTpos]
  · have hfilter : questionOptions db' qid
        = (questionOptions db1 qid).map (tallyUpdate qid all T0) := by
      unfold questionOptions
      rw [ho2', filter_map_tally]
    rw [hfilter]
    have hmemq : ∀ o0 ∈ questionOptions db1 qid, o0.question_id = qid := by
      intro o0 ho0
      have := List.of_mem_filter ho0
      simpa using this
    have hpct : ((questionOptions db1 qid).map (tallyUpdate qid all T0)).map
        (·.percentage)
        = ((questionOptions db1 qid).map (tallyUpdate qid all T0)).map
          (fun o => (o.count : ℚ) * (100 / ((T0 : Nat) : ℚ))) := by
      apply List.map_congr_left
      intro o ho
      obtain ⟨o0, ho0, ho0eq⟩ := List.mem_map.mp ho
      have ho0q : o0.question_id = qid := hmemq o0 ho0
      rw [← ho0eq]
      unfold tallyUpdate
      simp only [ho0q, beq_self_eq_true, if_true, hTpos]
      rw [mul_div_assoc]
    rw [hpct]
    rw [sum_map_mul_const ((questionOptions db1 qid).map (tallyUpdate qid all T0))
      (fun o => ((o.count : ℚ))) (100 / ((T0 : Nat) : ℚ))]
    rw [cast_sum_nat ((questionOptions db1 qid).map (tallyUpdate qid all T0))
      (fun o => o.count)]
    have hsub' : ∀ s ∈ all, ∃ o ∈ questionOptions db1 qid, o.id = s := by
      intro s hs
      obtain ⟨o, ho, hoid, hoq⟩ := f2 s hs
      refine ⟨o, ?_, hoid⟩
      unfold questionOptions
      apply List.mem_filter.mpr
      exact ⟨ho, by simp [hoq]⟩
    have hndq : ((questionOptions db1 qid).map (·.id)).Nodup := by
      apply List.Nodup.sublist _ f1
      apply List.Sublist.map
      unfold questionOptions
      exact List.filter_sublist _
    have hcnt := countP_sel (questionOptions db1 qid) all hndq hnodup hsub'
    have hsum_new : (((questionOptions db1 qid).map (tallyUpdate qid all T0)).map
        (·.count)).sum = T0 := by
      rw [sum_counts_tally _ qid all T0 hmemq, hcnt]
    rw [hsum_new]
    have hcast_ne : ((T0 : Nat) : ℚ) ≠ 0 := by
      simp only [ne_eq, Nat.cast_eq_zero]
      omega
    field_simp

/-- Witness for `percentage_normalization`: after a concrete successful
submission, the percentages of the question's options sum to 100. -/
theorem percentage_normalization_witness :
    ((questionOptions (createAnswer sampleDB 5 { options := [1] } sampleUser
      sampleToday 50).2 5).map (·.percentage)).sum = 100 :=
  (percentage_normalization sampleDB 5 { options := [1] } sampleUser
    sampleToday 50 1
    (createAnswer sampleDB 5 { options := [1] } sampleUser sampleToday 50).2
    (by refine ⟨?_, ?_, ?_⟩ <;> decide)
    (by
      have h1 : (createAnswer sampleDB 5 { options := [1] } sampleUser
        sampleToday 50).1 = .ok 1 := rfl
      exact Prod.ext (by rw [h1]) rfl)).2.2

/-! ## Claim C4: custom options on a question that forbids them

The check at `app/services/answers.py:130-131` raises
`TooManyOptionsError("Question does not allow user-created options")`,
not the `CustomOptionsNotAllowedError` defined in
`app/services/questions.py:32` (which is only reachable through
`QuestionService.create_option`, called after this check has already
passed). -/


/-- Claim C4, counterexample: at a concrete question with
`allow_user_options = false` and a non-empty `new_options` list, submit
fails with the `TooManyOptions` error kind, not
`CustomOptionsNotAllowed`. -/
theorem custom_options_error_kind_counterexample :
    (createAnswer sampleDB 5 { options := [], new_options := some ["X"] }
      sampleUser sampleToday 50).1 = .error .tooManyOptions
    ∧ (createAnswer sampleDB 5 { options := [], new_options := some ["X"] }
        sampleUser sampleToday 50).1 ≠ .error .customOptionsNotAllowed := by
  refine ⟨rfl, ?_⟩
  intro hcontra
  rw [show (createAnswer sampleDB 5 { options := [], new_options := some ["X"] }
      sampleUser sampleToday 50).1
    = (Except.error ApiError.tooManyOptions : Except ApiError Nat) from rfl] at hcontra
  injection hcontra with h2
  exact absurd h2 (by decide)

/-- Claim C4, amended: for every question with `allow_user_options = false`
and every respondent who supplies a non-empty `new_option_texts` list and
passes the preceding checks (steps 1–3), submit fails with the
`TooManyOptions` error kind (the code's message reads "Question does not
allow user-created options"), and the failure happens before any option or
Answer row is written: the state is returned unchanged. -/
theorem custom_options_rejected_before_write (db : DB) (qid : Nat)
    (ans : AnswerCreate) (user : User) (today : DateD) (now : Int)
    (q : QuestionRow)
    (hchk : checksPhase db qid user today now = .ok q)
    (hallow : q.allow_user_options = false)
    (hne : ans.new_options.getD [] ≠ []) :
    createAnswer db qid ans user today now = (.error .tooManyOptions, db) := by
  have hempty : ((ans.new_options.getD []).map
      (fun t => ({ text := t, position := none } : QuestionOptionCreate))).isEmpty
      = false := by
    cases hcase : ans.new_options.getD [] with
    | nil => exact absurd hcase hne
    | cons a t => rfl
  have hnop : newOptionsPhase db qid q user ans.new_options
      = .error .tooManyOptions := by
    unfold newOptionsPhase
    dsimp only
    simp only [hempty, Bool.false_eq_true, if_false, hallow, Bool.not_false,
      if_true]
  have hinner : createAnswerInner db qid ans user today now
      = .error .tooManyOptions := by
    unfold createAnswerInner
    rw [hchk]
    dsimp only
    rw [hnop]
  unfold createAnswer
  rw [hinner]

/-- Witness for `custom_options_rejected_before_write` at the concrete
sample store. -/
theorem custom_options_rejected_before_write_witness :
    createAnswer sampleDB 5 { options := [], new_options := some ["X"] }
      sampleUser sampleToday 50 = (.error .tooManyOptions, sampleDB) :=
  custom_options_rejected_before_write sampleDB 5
    { options := [], new_options := some ["X"] } sampleUser sampleToday 50
    sampleQuestion rfl rfl (by decide)

/-! ## Claim C5: answer fetch authorization

`AnswerService.get_answer_by_id` (`app/services/answers.py:215-218`)
raises `Unauthorized` when
`question.author.id != user.id or user.role != Role.admin`, i.e. it only
admits a requester who is the answer's respondent, or who is the question
author AND an admin at once.  This contradicts the method's own error
message ("Only author of question /answer can see the answer") and the
sibling method `get_answers_by_question_id_paginated`, which combines the
same two tests with `and`. -/


/-- Claim C5, the code evaluated at the failing inputs: the question author
(non-admin) and an admin (non-author) are both rejected with
`Unauthorized`; the respondent gets the answer; a missing id yields
`Missing`.  The spec says author and admin must succeed. -/
theorem get_answer_by_id_authorization :
    getAnswerById sampleDBAnswered 5 1 sampleAuthor = .error .unauthorized
    ∧ getAnswerById sampleDBAnswered 5 1 sampleAdmin = .error .unauthorized
    ∧ getAnswerById sampleDBAnswered 5 1 sampleUser = .ok ⟨1, 5, 10⟩
    ∧ getAnswerById sampleDBAnswered 5 99 sampleUser = .error .missing :=
  ⟨rfl, rfl, rfl, rfl⟩

/-! ## Claim C8: append options to an existing answer -/


/-- Claim C8, counterexample: appending one more valid option to an answer
that already holds `max_options` selections succeeds, leaving the answer
with 3 selected options although `max_options = 2` — the ceiling is
checked against the supplied list alone. -/
theorem append_options_ceiling_counterexample :
    (addAnswerOptions sampleDBAnswered 1 [7] sampleUser).1 = .ok ()
    ∧ ((addAnswerOptions sampleDBAnswered 1 [7]
        sampleUser).2.answer_options.countP (fun ao => ao.answer_id == 1)) = 3
    ∧ sampleQuestion.max_options = 2 :=
  ⟨rfl, rfl, rfl⟩

/-- Claim C8, amended: the append-options operation re-validates ownership
(`Unauthorized` when the caller is neither the answer's respondent nor an
admin) and option ownership (`OptionMismatch` when a supplied option does
not belong to the answer's question), and it checks the `max_options`
ceiling against the newly supplied list alone: any successful append
supplied at most `max_options` ids, but the answer's total number of
selected options can exceed `max_options`. -/
theorem append_options_revalidates (db : DB) (answer_id : Nat)
    (option_ids : List Nat) (user : User) (answer : AnswerRow)
    (hfind : db.answers.find? (fun a => a.id == answer_id) = some answer) :
    (answer.user_id ≠ user.id → user.role ≠ .admin →
      addAnswerOptions db answer_id option_ids user = (.error .unauthorized, db))
    ∧ (∀ q, db.questions.find? (fun qq => qq.id == answer.question_id) = some q →
        (answer.user_id = user.id ∨ user.role = .admin) →
        option_ids.length ≤ q.max_options →
        (∀ i ∈ option_ids, ∃ o ∈ db.options, o.id = i) →
        (∃ o ∈ db.options, o.id ∈ option_ids ∧ o.question_id ≠ q.id) →
        addAnswerOptions db answer_id option_ids user
          = (.error .optionMismatch, db))
    ∧ (∀ st, addAnswerOptions db answer_id option_ids user = (.ok (), st) →
        ∃ q, db.questions.find? (fun qq => qq.id == answer.question_id) = some q
          ∧ option_ids.length ≤ q.max_options) := by
  refine ⟨?_, ?_, ?_⟩
  · intro hneu hner
    unfold addAnswerOptions
    rw [hfind]
    dsimp only
    have hb : (!(answer.user_id == user.id) && !(user.role == Role.admin))
        = true := by simp [hneu, hner]
    simp only [hb, if_true]
  · intro q hq hown hlen hexists hmismatch
    unfold addAnswerOptions
    rw [hfind]
    dsimp only
    have hb : (!(answer.user_id == user.id) && !(user.role == Role.admin))
        = false := by
      rcases hown with h1 | h1 <;> simp [h1]
    simp only [hb, Bool.false_eq_true, if_false]
    rw [hq]
    dsimp only
    rw [if_neg (by omega)]
    have hget : getOptionsByIds db option_ids
        = .ok (db.options.filter (fun o => option_ids.contains o.id)) := by
      unfold getOptionsByIds
      dsimp only
      rw [if_pos]
      apply List.all_eq_true.mpr
      intro i hi
      obtain ⟨o, ho, hoid⟩ := hexists i hi
      have hofilter : o ∈ db.options.filter (fun o => option_ids.contains o.id) := by
        apply List.mem_filter.mpr
        refine ⟨ho, ?_⟩
        rw [hoid]
        simpa using hi
      have : i ∈ (db.options.filter
          (fun o => option_ids.contains o.id)).map (·.id) := by
        apply List.mem_map.mpr
        exact ⟨o, hofilter, hoid⟩
      simpa using this
    rw [hget]
    dsimp only
    obtain ⟨o, ho, hoin, honq⟩ := hmismatch
    have hofilter : o ∈ db.options.filter (fun o => option_ids.contains o.id) := by
      apply List.mem_filter.mpr
      refine ⟨ho, ?_⟩
      simpa using hoin
    have hsome : ((db.options.filter (fun o => option_ids.contains o.id)).find?
        (fun o => !(o.question_id == q.id))).isSome := by
      apply List.find?_isSome.mpr
      exact ⟨o, hofilter, by simp [honq]⟩
    cases hfs : (db.options.filter (fun o => option_ids.contains o.id)).find?
        (fun o => !(o.question_id == q.id)) with
    | none => rw [hfs] at hsome; exact absurd hsome (by simp)
    | some o' => rfl
  · intro st hsucc
    unfold addAnswerOptions at hsucc
    rw [hfind] at hsucc
    dsimp only at hsucc
    by_cases hb1 : (!(answer.user_id == user.id) && !(user.role == Role.admin)) = true
    · rw [if_pos hb1] at hsucc
      exact absurd hsucc (by simp)
    · rw [if_neg hb1] at hsucc
      cases hq : db.questions.find? (fun qq => qq.id == answer.question_id) with
      | none => rw [hq] at hsucc; exact absurd hsucc (by simp)
      | some q =>
        rw [hq] at hsucc
        dsimp only at hsucc
        refine ⟨q, rfl, ?_⟩
        by_cases hlen : q.max_options < option_ids.length
        · rw [if_pos hlen] at hsucc
          exact absurd hsucc (by simp)
        · omega

/-- Witness for `append_options_revalidates`: concrete unauthorized and
mismatching calls, and the concrete successful call of the counterexample
supplying one id under the ceiling of 2. -/
theorem append_options_revalidates_witness :
    addAnswerOptions sampleDBAnswered 1 [7] sampleAuthor
      = (.error .unauthorized, sampleDBAnswered)
    ∧ (1 : Nat) ≤ sampleQuestion.max_options := by
  have h := append_options_revalidates sampleDBAnswered 1 [7] sampleAuthor
    ⟨1, 5, 10⟩ rfl
  refine ⟨h.1 (by decide) (by decide), by decide⟩

end Backnew

